import Mathlib

/-!
Shallow embedding of the decode CLI (a flag-driven scaffolding utility) and
proofs about its observable behavior.  Each definition mirrors one function of
the JavaScript source: `runShell` and `runCapture` model the two process-runner
wrappers around `spawnSync`, `pkgManager` models the lock-file based
package-manager selection, `mapTitleToPath` and `detectActivePath` model the
active-path detector, `stepNavigator` models one transition of the interactive
navigator loop, and `foldersHandler`, `filesRun`, `pluginHandler`, `goRun`
model the corresponding command handlers.  Filesystem reads and child-process
results are passed in explicitly (`FsEnv`, `CaptureRes`, `SpawnRes`), so every
definition is a total, executable Lean function.
-/

namespace Decode

/-! ### Process runner -/

/-- Outcome of a `spawnSync` call with inherited stdio: either the spawn itself
failed (`res.error` set, the wrapper throws) or the child exited with a status
code (`res.status ?? 0`). -/
inductive SpawnRes where
  | spawnError
  | exited (code : Int)

/-- Embedding of `runShell` (and `runSync`): throws the spawn error if present,
otherwise returns the exit status.  A non-zero exit status is returned
normally, not thrown. -/
def runShell : SpawnRes → Except Unit Int
  | .spawnError => .error ()
  | .exited c => .ok c

/-- Result record of a `spawnSync` call with captured output, as consumed by
`runCapture`: the `error` field and the (possibly absent) stdout text. -/
structure CaptureRes where
  error : Bool
  stdout : Option String

/-- Embedding of `runCapture`: on a spawn error return the empty string,
otherwise return the captured stdout (empty when absent) trimmed of
surrounding whitespace. -/
def runCapture (res : CaptureRes) : String :=
  if res.error then "" else (res.stdout.getD "").trim

/-! ### Package-manager selection -/

/-- Embedding of the module-level `pkgManager` initialisation: `pnpm` when
`pnpm-lock.yaml` exists, else `yarn` when `yarn.lock` exists, else `npm`.
The two booleans are the `fs.existsSync` results for the two lock files. -/
def pkgManager (pnpmLock yarnLock : Bool) : String :=
  if pnpmLock then "pnpm" else if yarnLock then "yarn" else "npm"

/-! ### The `-go` handler -/

/-- Trace of one run of the `-go` handler: how many times the primary
(`pkgManager run dev`) and the fallback (`pkgManager start`) were invoked, and
the final outcome (an uncaught fallback spawn error propagates). -/
structure GoTrace where
  primaryRuns : Nat
  fallbackRuns : Nat
  result : Except Unit Int

/-- Embedding of the `-go` handler:
`try { runShell(pm run dev) } catch { runShell(pm start) }`.
The fallback runs exactly when `runShell` on the primary throws, which happens
only on a spawn error, never on a non-zero exit status. -/
def goRun (primary fallback : SpawnRes) : GoTrace :=
  match runShell primary with
  | .ok c => ⟨1, 0, .ok c⟩
  | .error _ => ⟨1, 1, runShell fallback⟩

/-! ### String and path helpers (win32 model of the node `path` module) -/

/-- Path separator characters recognised by node's win32 path handling. -/
def isSep (c : Char) : Bool := c = '\\' || c = '/'

/-- ASCII drive letter test used by node's win32 `path.isAbsolute`. -/
def isDriveLetter (c : Char) : Bool :=
  ('A' ≤ c && c ≤ 'Z') || ('a' ≤ c && c ≤ 'z')

/-- Model of node win32 `path.isAbsolute`: a leading separator, or a drive
letter followed by a colon and a separator. -/
def pathIsAbsolute (s : String) : Bool :=
  match s.toList with
  | [] => false
  | c :: rest =>
    isSep c ||
    (isDriveLetter c &&
      match rest with
      | c1 :: c2 :: _ => c1 = ':' && isSep c2
      | _ => false)

/-- Model of node win32 `path.join` for the ordinary two-segment case used by
the source (root + entry name). -/
def pathJoin (a b : String) : String :=
  if a = "" then b else if b = "" then a else a ++ "\\" ++ b

/-- Drop the final path component and its separator from a character list. -/
def dropBaseName (cs : List Char) : List Char :=
  ((cs.reverse.dropWhile (fun c => !isSep c)).drop 1).reverse

/-- Model of node `path.dirname` for ordinary paths: everything before the
last separator, `"."` when there is none. -/
def pathDirname (p : String) : String :=
  let r := dropBaseName p.toList
  if r.isEmpty then "." else String.mk r

/-- Lower-case an ASCII letter (model of the `toLowerCase` used on folder and
title names, which are ASCII in this code base). -/
def toLowerChar (c : Char) : Char :=
  if 'A' ≤ c && c ≤ 'Z' then Char.ofNat (c.toNat + 32) else c

/-- Embedding of JavaScript `s.toLowerCase()` on ASCII strings. -/
def strToLower (s : String) : String := String.mk (s.toList.map toLowerChar)

/-- Does the string start with a dash (the `arg.startsWith("-")` check of the
`-folders` handler)? -/
def strHeadIsDash (s : String) : Bool :=
  match s.toList with
  | [] => false
  | c :: _ => c = '-'

/-- Infix test on character lists: does the second list contain the first as a
contiguous segment? -/
def listHasInfix (needle : List Char) : List Char → Bool
  | [] => needle.isEmpty
  | c :: rest => needle.isPrefixOf (c :: rest) || listHasInfix needle rest

/-- Embedding of JavaScript `hay.includes(needle)` (substring containment). -/
def strIncludes (hay needle : String) : Bool :=
  listHasInfix needle.toList hay.toList

/-! ### Filesystem environment -/

/-- Read-only filesystem facts consumed by the detector and the handlers:
`fs.existsSync`, `fs.statSync(..).isDirectory()` and `fs.readdirSync`. -/
structure FsEnv where
  pathExists : String → Bool
  isDir : String → Bool
  listDir : String → List String

/-- The configured project roots searched by the detector (hard-coded list in
the source; the theorems quantify over the root list as configuration). -/
def PROJECT_ROOTS : List String :=
  ["D:\\Studies\\projects\\my_projects",
   "D:\\Studies\\projects\\cookie_projects",
   "D:\\Studies\\projects"]

/-! ### Active-path detector -/

/-- Captured spawn results for the two OS-introspection probes (the PowerShell
explorer query and the VSCode window-title query). -/
structure SpawnEnv where
  explorerRes : CaptureRes
  vscodeRes : CaptureRes

/-- Embedding of `getActiveExplorerPathWindows`: the captured output, with the
empty string (JavaScript falsy) mapped to `none`. -/
def getActiveExplorerPathWindows (sp : SpawnEnv) : Option String :=
  let out := runCapture sp.explorerRes
  if out = "" then none else some out

/-- Editor-branding suffix stripped from the VSCode window title. -/
def vsCodeBranding : String := " - Visual Studio Code"

/-- Strip the trailing editor-branding suffix when present (the regex
`/ - Visual Studio Code$/` replace). -/
def stripVSCodeBranding (s : String) : String :=
  if s.endsWith vsCodeBranding then s.dropRight vsCodeBranding.length else s

/-- Embedding of `getActiveVSCodeTitle`: empty capture is `none`; otherwise
strip the branding suffix, trim, and map the empty result to `none`. -/
def getActiveVSCodeTitle (sp : SpawnEnv) : Option String :=
  let out := runCapture sp.vscodeRes
  if out = "" then none
  else
    let t := (stripVSCodeBranding out).trim
    if t = "" then none else some t

/-- Case-insensitive match used on each directory entry `d` against the title
`t`: equality or containment after `toLowerCase`. -/
def matchesTitle (t d : String) : Bool :=
  strToLower d == strToLower t || strIncludes (strToLower d) (strToLower t)

/-- Candidate entries of one root for a title: the root must exist, and each
entry must be a directory whose name case-insensitively equals or contains the
title. -/
def rootCandidates (env : FsEnv) (t root : String) : List String :=
  if env.pathExists root then
    (env.listDir root).filter (fun d => env.isDir (pathJoin root d) && matchesTitle t d)
  else []

/-- The root loop of `mapTitleToPath`: the first root with any candidate
decides the result — a single candidate is returned directly, with several an
exact case-insensitive name match is preferred, otherwise the first candidate
in listing order. -/
def pickFromRoots (env : FsEnv) (t : String) : List String → Option String
  | [] => none
  | root :: rest =>
    match rootCandidates env t root with
    | [] => pickFromRoots env t rest
    | [c] => some (pathJoin root c)
    | c :: _ :: _ =>
      match (rootCandidates env t root).find? (fun x => strToLower x == strToLower t) with
      | some exact => some (pathJoin root exact)
      | none => some (pathJoin root c)

/-- Embedding of `mapTitleToPath`: `null` or empty titles resolve to nothing;
an absolute existing title is returned as-is; otherwise the configured roots
are searched via `pickFromRoots`. -/
def mapTitleToPath (env : FsEnv) (roots : List String) (title : Option String) :
    Option String :=
  match title with
  | none => none
  | some t =>
    if t = "" then none
    else if pathIsAbsolute t && env.pathExists t then some t
    else pickFromRoots env t roots

/-- All matches of a title across the whole root list, in root-iteration order
(the per-root candidates mapped to full paths, concatenated).  Used to state
global uniqueness and multiplicity of matches. -/
def allMatches (env : FsEnv) (t : String) : List String → List String
  | [] => []
  | r :: rest => (rootCandidates env t r).map (pathJoin r) ++ allMatches env t rest

/-- Stages 2 and 3 of the detector followed by the cwd fallback: resolve the
VSCode title against the roots, else return the working directory. -/
def detectStage23 (sp : SpawnEnv) (env : FsEnv) (roots : List String) (cwd : String) :
    String :=
  match mapTitleToPath env roots (getActiveVSCodeTitle sp) with
  | some p => p
  | none => cwd

/-- Embedding of `detectActivePath`: an existing explorer path wins, otherwise
the VSCode-title resolution, otherwise the working directory. -/
def detectActivePath (sp : SpawnEnv) (env : FsEnv) (roots : List String) (cwd : String) :
    String :=
  match getActiveExplorerPathWindows sp with
  | some e => if env.pathExists e then e else detectStage23 sp env roots cwd
  | none => detectStage23 sp env roots cwd

/-! ### Interactive navigator -/

/-- A value produced by the navigator prompt: a listed directory, or one of the
three control entries (`__open`, `__back`, `__exit`). -/
inductive NavChoice where
  | select (p : String)
  | openHere
  | goBack
  | exitNav

/-- Navigator state: the current path (none before any folder was entered) and
the offered directory choices. -/
structure NavState where
  currentPath : Option String
  currentChoices : List String

/-- Outcome of one navigator transition: continue with a new state, exit,
invoke the action on a path, or warn that no path was selected. -/
inductive NavStep where
  | next (s : NavState)
  | exited
  | opened (p : String)
  | warnedNoPath

/-- The live directory listing used by the navigator: `readdirSync(p)` joined
to full paths and filtered to directories, read from the environment at
transition time. -/
def liveSubdirs (env : FsEnv) (p : String) : List String :=
  ((env.listDir p).map (pathJoin p)).filter env.isDir

/-- Embedding of one iteration of the `stepNavigator` loop body, given the
listing function of the filesystem as it is at transition time.  The back
branch recomputes the parent and re-lists its children; the descend branch
lists the chosen folder's children; choices are never carried over. -/
def stepNavigator (listSubdirs : String → List String) (s : NavState) :
    NavChoice → NavStep
  | .exitNav => .exited
  | .goBack =>
    match s.currentPath with
    | none => .exited
    | some p => .next ⟨some (pathDirname p), listSubdirs (pathDirname p)⟩
  | .openHere =>
    match s.currentPath with
    | none => .warnedNoPath
    | some p => .opened p
  | .select q => .next ⟨some q, listSubdirs q⟩

/-! ### The `-folders` handler -/

/-- The flag-letter table of the MVC mode: `m`, `c`, `r`, `s` map to the four
directory names, other letters are ignored. -/
def mvcMap (c : Char) : Option String :=
  if c = 'm' then some "models"
  else if c = 'c' then some "controllers"
  else if c = 'r' then some "routes"
  else if c = 's' then some "services"
  else none

/-- Embedding of JavaScript `arg.replace("-", "")`: remove the first `-`. -/
def replaceFirstDash : List Char → List Char
  | [] => []
  | c :: rest => if c = '-' then rest else c :: replaceFirstDash rest

/-- Create a directory in the working directory unless it already exists (the
`existsSync` check before `mkdirSync`); the state is the list of existing
entry names in creation order. -/
def mkdirIfAbsent (dirs : List String) (d : String) : List String :=
  if dirs.contains d then dirs else dirs ++ [d]

/-- MVC mode of `-folders`: process the flag letters in order, creating each
mapped directory when absent and recording its name unconditionally. -/
def mvcProcess (dirs : List String) : List Char → List String × List String
  | [] => (dirs, [])
  | c :: rest =>
    match mvcMap c with
    | some nm =>
      let r := mvcProcess (mkdirIfAbsent dirs nm) rest
      (r.1, nm :: r.2)
    | none => mvcProcess dirs rest

/-- Custom-name mode of `-folders`: create each named directory when absent
and record every name unconditionally. -/
def customProcess (dirs : List String) : List String → List String × List String
  | [] => (dirs, [])
  | f :: rest =>
    let r := customProcess (mkdirIfAbsent dirs f) rest
    (r.1, f :: r.2)

/-- Result of the `-folders` handler: the entries of the working directory
afterwards, the recorded created names, and the printed message. -/
structure FoldersResult where
  dirs : List String
  created : List String
  message : String

/-- Embedding of the `-folders` handler: default to `-mrcs` when no argument
is given, dispatch on whether the argument starts with a dash, and print the
success message joining the recorded names (or the warning when none). -/
def foldersHandler (dirs : List String) (cliArgs : List String) : FoldersResult :=
  let args := if cliArgs.length < 2 then ["-folders", "-mrcs"] else cliArgs
  let arg := args.getD 1 ""
  let r :=
    if strHeadIsDash arg then mvcProcess dirs (replaceFirstDash arg.toList)
    else customProcess dirs (args.drop 1)
  { dirs := r.1
    created := r.2
    message :=
      if r.2.isEmpty then "Warning: No folders created. Use -mrcs or custom names."
      else "Success: Created folders: " ++ String.intercalate ", " r.2 }

/-! ### The `-files` handler -/

/-- A working directory's file contents, keyed by entry name (`none` when the
entry does not exist). -/
def FileSys : Type := String → Option String

/-- The empty working directory. -/
def emptyFileSys : FileSys := fun _ => none

/-- Write an empty file at the given name (`fs.writeFileSync(p, "")`). -/
def writeEmptyFile (fs : FileSys) (f : String) : FileSys :=
  fun g => if g = f then some "" else fs g

/-- Result of the `-files` handler: the filesystem afterwards, the names for
which a write was actually performed, and the printed log lines. -/
structure FilesResult where
  fs : FileSys
  writes : List String
  logs : List String

/-- Embedding of the `-files` handler loop: for each name, write an empty file
only when the target does not exist, and log `Created: name` unconditionally. -/
def filesRun (fs : FileSys) : List String → FilesResult
  | [] => ⟨fs, [], []⟩
  | f :: rest =>
    if (fs f).isSome then
      let r := filesRun fs rest
      ⟨r.fs, r.writes, ("Created: " ++ f) :: r.logs⟩
    else
      let r := filesRun (writeEmptyFile fs f) rest
      ⟨r.fs, f :: r.writes, ("Created: " ++ f) :: r.logs⟩

/-! ### The `-plugin` handler -/

/-- Result of the `-plugin` handler: the printed warning (when any) and the
external process invocations performed. -/
structure PluginResult where
  warning : Option String
  invocations : List String

/-- Embedding of the `-plugin` handler: a missing or falsy name prints the
usage warning; otherwise the project-local and install-local plugin paths are
probed in order and the first existing one is executed, with a not-found
warning and no invocation when neither exists. -/
def pluginHandler (env : FsEnv) (cwd dirLoc : String) (tail : List String) :
    PluginResult :=
  match tail with
  | [] => ⟨some "Usage: decode -plugin <name> [args…]", []⟩
  | name :: extra =>
    if name = "" then ⟨some "Usage: decode -plugin <name> [args…]", []⟩
    else
      let candidatePaths :=
        [pathJoin (pathJoin cwd "plugins") (name ++ ".js"),
         pathJoin (pathJoin dirLoc "plugins") (name ++ ".js")]
      match candidatePaths.find? env.pathExists with
      | none => ⟨some ("Plugin not found: " ++ name), []⟩
      | some plugin =>
        ⟨none, ["node \"" ++ plugin ++ "\" " ++ String.intercalate " " extra]⟩

/-! ### Concrete environments used by witnesses and counterexamples -/

/-- A spawn environment in which both OS-introspection probes fail to spawn. -/
def spFail : SpawnEnv := ⟨⟨true, none⟩, ⟨true, none⟩⟩

/-- A filesystem environment in which nothing exists. -/
def envNone : FsEnv := ⟨fun _ => false, fun _ => false, fun _ => []⟩

/-- A filesystem with two roots: `r1` holds a directory `abcx` that contains
the title `abc`, `r2` holds a directory `abc` that matches it exactly. -/
def crossRootEnv : FsEnv where
  pathExists := fun s => s == "r1" || s == "r2"
  isDir := fun s => s == "r1\\abcx" || s == "r2\\abc"
  listDir := fun s => if s == "r1" then ["abcx"] else if s == "r2" then ["abc"] else []

/-- A filesystem with one root `r1` holding a single directory `myproj`, the
unique match for the title `myproj`. -/
def uniqueEnv : FsEnv where
  pathExists := fun s => s == "r1"
  isDir := fun s => s == "r1\\myproj"
  listDir := fun s => if s == "r1" then ["myproj"] else []

/-! ### Theorems -/

/-- Claim C9: the package manager is selected by lock-file presence with fixed
precedence — `pnpm-lock.yaml` selects pnpm (also when `yarn.lock` is present),
otherwise `yarn.lock` selects yarn, otherwise npm is used. -/
theorem pkgManager_precedence :
    pkgManager true true = "pnpm" ∧ pkgManager true false = "pnpm" ∧
    pkgManager false true = "yarn" ∧ pkgManager false false = "npm" := by
  decide

/-- Claim C1, counterexample: a primary invocation that fails with a non-zero
exit status (status 1) does not trigger the fallback at all — the claim's
"fallback is invoked exactly once" is false at this input. -/
theorem go_nonzero_exit_no_fallback_cex :
    (goRun (SpawnRes.exited 1) (SpawnRes.exited 0)).fallbackRuns ≠ 1 := by
  decide

/-- Claim C1, amended: the fallback is invoked exactly once when the primary
invocation fails to spawn (`runShell` throws a launch error) and never when
the primary spawns successfully — any returned exit status, zero or non-zero,
leaves the fallback uninvoked. -/
theorem go_fallback_only_on_spawn_error (p f : SpawnRes) :
    (∀ c, p = SpawnRes.exited c → (goRun p f).fallbackRuns = 0) ∧
    (p = SpawnRes.spawnError →
      (goRun p f).fallbackRuns = 1 ∧ (goRun p f).result = runShell f) := by
  constructor
  · intro c hc
    subst hc
    rfl
  · intro hp
    subst hp
    exact ⟨rfl, rfl⟩

/-- Witness for `go_fallback_only_on_spawn_error` at concrete spawn results. -/
theorem go_fallback_only_on_spawn_error_witness :
    (goRun (SpawnRes.exited 0) (SpawnRes.exited 0)).fallbackRuns = 0 ∧
    (goRun SpawnRes.spawnError (SpawnRes.exited 0)).fallbackRuns = 1 :=
  ⟨(go_fallback_only_on_spawn_error (SpawnRes.exited 0) (SpawnRes.exited 0)).1 0 rfl,
   ((go_fallback_only_on_spawn_error SpawnRes.spawnError (SpawnRes.exited 0)).2 rfl).1⟩

/-- Claim C8: `runCapture` is a total function that returns the empty string
on any spawn failure and otherwise the captured stdout trimmed of surrounding
whitespace. -/
theorem runCapture_total_spec (res : CaptureRes) :
    (res.error = true → runCapture res = "") ∧
    (res.error = false → runCapture res = (res.stdout.getD "").trim) := by
  constructor
  · intro h
    simp [runCapture, h]
  · intro h
    simp [runCapture, h]

/-- Witness for `runCapture_total_spec` at concrete spawn results. -/
theorem runCapture_total_spec_witness :
    runCapture ⟨true, some " boom "⟩ = "" ∧
    runCapture ⟨false, some " hi "⟩ = ((some " hi ").getD "").trim :=
  ⟨(runCapture_total_spec ⟨true, some " boom "⟩).1 rfl,
   (runCapture_total_spec ⟨false, some " hi "⟩).2 rfl⟩

/-- Claim C5: from a state with a current path, selecting Go Back transitions
to the parent path with choices equal to the parent's live subdirectory
listing at transition time — whatever stale choice list (read under a possibly
different earlier filesystem) the state carried is discarded, never cached. -/
theorem navigator_back_fresh_listing (envOld envNow : FsEnv) (p : String) :
    stepNavigator (liveSubdirs envNow) ⟨some p, liveSubdirs envOld p⟩ NavChoice.goBack =
      NavStep.next ⟨some (pathDirname p), liveSubdirs envNow (pathDirname p)⟩ := rfl

/-- Claim C2, counterexample: running `-folders -mrcs` in an empty directory
does not print the four names in the order models, controllers, routes,
services. -/
theorem folders_mrcs_order_cex :
    (foldersHandler [] ["-folders", "-mrcs"]).message ≠
      "Success: Created folders: models, controllers, routes, services" := by
  decide

/-- Claim C2, amended: `-folders -mrcs` in an empty directory creates exactly
the four subdirectories models, routes, controllers, services and prints a
single success message listing all four in the flag-letter order m, r, c, s,
that is models, routes, controllers, services. -/
theorem folders_mrcs_creates_four :
    (foldersHandler [] ["-folders", "-mrcs"]).dirs =
      ["models", "routes", "controllers", "services"] ∧
    (foldersHandler [] ["-folders", "-mrcs"]).created =
      ["models", "routes", "controllers", "services"] ∧
    (foldersHandler [] ["-folders", "-mrcs"]).message =
      "Success: Created folders: models, routes, controllers, services" := by
  decide

/-- Claim C3: the detector degrades to the working directory — whenever the
explorer probe yields no usable path (no output, or garbled output naming a
non-existing path) and the VSCode-title resolution finds nothing (failed or
garbled title query, no project-root match), `detectActivePath` returns the
invoking process's working directory.  The function is total by construction,
so no input environment can make it raise. -/
theorem detectActivePath_fallback (sp : SpawnEnv) (env : FsEnv)
    (roots : List String) (cwd : String)
    (h1 : ∀ e, getActiveExplorerPathWindows sp = some e → env.pathExists e = false)
    (h2 : mapTitleToPath env roots (getActiveVSCodeTitle sp) = none) :
    detectActivePath sp env roots cwd = cwd := by
  unfold detectActivePath
  cases hE : getActiveExplorerPathWindows sp with
  | none => simp [detectStage23, h2]
  | some e => simp [detectStage23, h2, h1 e hE]

/-- Witness for `detectActivePath_fallback`: both probes fail to spawn and the
configured roots are empty, so the detector returns the working directory. -/
theorem detectActivePath_fallback_witness :
    detectActivePath spFail envNone PROJECT_ROOTS "C:\\work" = "C:\\work" :=
  detectActivePath_fallback spFail envNone PROJECT_ROOTS "C:\\work"
    (by intro e h; simp [spFail, getActiveExplorerPathWindows, runCapture] at h)
    (by decide)

/-- Helper for C4: when the whole root list has exactly one match, the root
loop returns it. -/
theorem pickFromRoots_unique (env : FsEnv) (t : String) :
    ∀ (roots : List String) (p : String), allMatches env t roots = [p] →
      pickFromRoots env t roots = some p := by
  intro roots
  induction roots with
  | nil =>
    intro p h
    simp [allMatches] at h
  | cons r rest ih =>
    intro p h
    cases hc : rootCandidates env t r with
    | nil =>
      rw [allMatches, hc] at h
      simp at h
      simp [pickFromRoots, hc]
      exact ih p h
    | cons c cs =>
      cases cs with
      | nil =>
        rw [allMatches, hc] at h
        simp at h
        simp [pickFromRoots, hc, h.1]
      | cons c2 cs2 =>
        rw [allMatches, hc] at h
        simp at h

/-- Claim C4, counterexample: with roots `r1` and `r2` and title `abc` there
are two matches overall — the containing match `r1\abcx` and the exact match
`r2\abc` — yet resolution returns the earlier root's containing match, not the
exact one the claim requires. -/
theorem mapTitle_cross_root_exact_cex :
    allMatches crossRootEnv "abc" ["r1", "r2"] = ["r1\\abcx", "r2\\abc"] ∧
    mapTitleToPath crossRootEnv ["r1", "r2"] (some "abc") = some "r1\\abcx" ∧
    mapTitleToPath crossRootEnv ["r1", "r2"] (some "abc") ≠ some "r2\\abc" := by
  decide

/-- Claim C4, amended: a bare non-empty title that is the unique
case-insensitive match across all roots resolves to that match; with several
matches the first root (in iteration order) that has any candidate decides the
result — within that root an exact case-insensitive name match is preferred,
otherwise its first candidate in listing order is returned — and a root
without candidates is skipped.  An exact match in a later root does not
override a containing match in an earlier root. -/
theorem mapTitleToPath_resolution (env : FsEnv) (t : String) (roots : List String)
    (ht : ¬ t = "") (habs : (pathIsAbsolute t && env.pathExists t) = false) :
    (∀ p, allMatches env t roots = [p] → mapTitleToPath env roots (some t) = some p) ∧
    (∀ r rest, roots = r :: rest → rootCandidates env t r = [] →
      mapTitleToPath env roots (some t) = mapTitleToPath env rest (some t)) ∧
    (∀ r rest, roots = r :: rest → rootCandidates env t r ≠ [] →
      mapTitleToPath env roots (some t) =
        some (pathJoin r
          (((rootCandidates env t r).find? (fun x => strToLower x == strToLower t)).getD
            ((rootCandidates env t r).headD "")))) := by
  have hmap : ∀ rs, mapTitleToPath env rs (some t) = pickFromRoots env t rs := by
    intro rs
    simp [mapTitleToPath, ht, habs]
  refine ⟨?_, ?_, ?_⟩
  · intro p h
    rw [hmap]
    exact pickFromRoots_unique env t roots p h
  · intro r rest hr hc
    subst hr
    rw [hmap, hmap]
    simp [pickFromRoots, hc]
  · intro r rest hr hc
    subst hr
    rw [hmap]
    cases hcc : rootCandidates env t r with
    | nil => exact absurd hcc hc
    | cons c cs =>
      cases cs with
      | nil =>
        by_cases he : (strToLower c == strToLower t) = true
        · simp [pickFromRoots, hcc, List.find?, he]
        · simp [pickFromRoots, hcc, List.find?, he]
      | cons c2 cs2 =>
        cases hf : List.find? (fun x => strToLower x == strToLower t) (c :: c2 :: cs2) with
        | none => simp [pickFromRoots, hcc, hf]
        | some e => simp [pickFromRoots, hcc, hf]

/-- Witness for `mapTitleToPath_resolution`: a unique match under a single
root resolves to that folder's full path. -/
theorem mapTitleToPath_resolution_witness :
    mapTitleToPath uniqueEnv ["r1"] (some "myproj") = some "r1\\myproj" :=
  (mapTitleToPath_resolution uniqueEnv "myproj" ["r1"] (by decide) (by decide)).1
    "r1\\myproj" (by decide)

/-- Helper for C6: a file that exists keeps existing through a `-files` run. -/
theorem filesRun_preserves_isSome (names : List String) :
    ∀ (fs : FileSys) (g : String), (fs g).isSome = true →
      ((filesRun fs names).fs g).isSome = true := by
  induction names with
  | nil =>
    intro fs g h
    exact h
  | cons f rest ih =>
    intro fs g h
    by_cases hf : (fs f).isSome = true
    · simp only [filesRun, hf, if_true]
      exact ih fs g h
    · simp only [filesRun, hf, if_false]
      refine ih _ g ?_
      unfold writeEmptyFile
      by_cases hg : g = f
      · simp [hg]
      · simp [hg, h]

/-- Helper for C6: after a `-files` run every listed name exists. -/
theorem filesRun_mem_isSome (names : List String) :
    ∀ (fs : FileSys) (g : String), g ∈ names →
      ((filesRun fs names).fs g).isSome = true := by
  induction names with
  | nil =>
    intro fs g h
    cases h
  | cons f rest ih =>
    intro fs g hg
    by_cases hf : (fs f).isSome = true
    · simp only [filesRun, hf, if_true]
      rcases List.mem_cons.mp hg with h | h
      · subst h
        exact filesRun_preserves_isSome rest fs g hf
      · exact ih fs g h
    · simp only [filesRun, hf, if_false]
      rcases List.mem_cons.mp hg with h | h
      · subst h
        refine filesRun_preserves_isSome rest _ g ?_
        simp [writeEmptyFile]
      · exact ih _ g h

/-- Helper for C6: when every listed name already exists, a `-files` run
leaves the filesystem untouched, performs no write, and still logs every
name. -/
theorem filesRun_noop (names : List String) :
    ∀ (fs : FileSys), (∀ f, f ∈ names → (fs f).isSome = true) →
      filesRun fs names = ⟨fs, [], names.map (fun f => "Created: " ++ f)⟩ := by
  induction names with
  | nil =>
    intro fs _
    rfl
  | cons f rest ih =>
    intro fs h
    have hf : (fs f).isSome = true := h f (List.mem_cons_self f rest)
    simp only [filesRun, hf, if_true]
    rw [ih fs (fun g hg => h g (List.mem_cons_of_mem f hg))]
    simp

/-- Claim C6: `-files a.txt b.txt` on an empty directory writes two empty
files, and a `-files` run over names that were all just created (or already
existed) performs no write at all and leaves every file byte-identical — the
command is idempotent. -/
theorem files_create_and_idempotent :
    ((filesRun emptyFileSys ["a.txt", "b.txt"]).fs "a.txt" = some "" ∧
     (filesRun emptyFileSys ["a.txt", "b.txt"]).fs "b.txt" = some "" ∧
     (filesRun emptyFileSys ["a.txt", "b.txt"]).writes = ["a.txt", "b.txt"]) ∧
    ∀ (fs : FileSys) (names : List String),
      filesRun (filesRun fs names).fs names =
        ⟨(filesRun fs names).fs, [], names.map (fun f => "Created: " ++ f)⟩ := by
  constructor
  · refine ⟨?_, ?_, ?_⟩ <;> decide
  · intro fs names
    exact filesRun_noop names _ (fun f hf => filesRun_mem_isSome names fs f hf)

/-- Helper for C10: the custom-name mode records every argument name, in
order, whatever directories already exist. -/
theorem customProcess_reports (names : List String) :
    ∀ (dirs : List String), (customProcess dirs names).2 = names := by
  induction names with
  | nil =>
    intro dirs
    rfl
  | cons f rest ih =>
    intro dirs
    simp [customProcess, ih]

/-- Helper for C10: the `-files` handler logs `Created:` for every argument
name, whatever files already exist. -/
theorem filesRun_logs (names : List String) :
    ∀ (fs : FileSys), (filesRun fs names).logs =
      names.map (fun f => "Created: " ++ f) := by
  induction names with
  | nil =>
    intro fs
    rfl
  | cons f rest ih =>
    intro fs
    by_cases hf : (fs f).isSome = true <;> simp [filesRun, hf, ih]

/-- Claim C10: in `-folders` custom-name mode and in `-files`, every argument
name appears in the reported output regardless of the prior state of the
working directory — pre-existing targets are reported as created too. -/
theorem created_output_reports_all_names (dirs : List String) (n : String)
    (ns : List String) (h : strHeadIsDash n = false) (fs : FileSys)
    (fnames : List String) :
    (foldersHandler dirs ("-folders" :: n :: ns)).created = n :: ns ∧
    (filesRun fs fnames).logs = fnames.map (fun f => "Created: " ++ f) := by
  constructor
  · have hlen : ¬ (ns.length + 1 + 1 < 2) := by omega
    simp [foldersHandler, h, hlen]
    exact customProcess_reports (n :: ns) dirs
  · exact filesRun_logs fnames fs

/-- Witness for `created_output_reports_all_names`: a pre-existing directory
and a pre-existing file are still reported as created. -/
theorem created_output_reports_all_names_witness :
    (foldersHandler ["models"] ["-folders", "models"]).created = ["models"] ∧
    (filesRun (fun _ => some "x") ["a.txt"]).logs = ["a.txt"].map (fun f => "Created: " ++ f) :=
  created_output_reports_all_names ["models"] "models" [] (by decide)
    (fun _ => some "x") ["a.txt"]

/-- Claim C7: when neither the project-local nor the install-local plugin file
exists, the `-plugin` handler prints the not-found warning and performs no
external process invocation. -/
theorem plugin_not_found_no_invocation (env : FsEnv) (cwd dirLoc name : String)
    (extra : List String) (hn : ¬ name = "")
    (h1 : env.pathExists (pathJoin (pathJoin cwd "plugins") (name ++ ".js")) = false)
    (h2 : env.pathExists (pathJoin (pathJoin dirLoc "plugins") (name ++ ".js")) = false) :
    pluginHandler env cwd dirLoc (name :: extra) =
      ⟨some ("Plugin not found: " ++ name), []⟩ := by
  simp [pluginHandler, hn, List.find?, h1, h2]

/-- Witness for `plugin_not_found_no_invocation` on an empty filesystem. -/
theorem plugin_not_found_no_invocation_witness :
    pluginHandler envNone "C:\\proj" "C:\\decode" ["missing"] =
      ⟨some "Plugin not found: missing", []⟩ :=
  plugin_not_found_no_invocation envNone "C:\\proj" "C:\\decode" "missing" []
    (by decide) rfl rfl

end Decode
